import Mathlib

/-!
# Shallow embedding of the `mmorp-server` world service

This file embeds the world-simulation core of `internal/app/world/service.go`
(together with the domain types of `internal/domain/world`) as executable Lean
definitions, and proves or refutes the frozen claims about it.

Modelling conventions, chosen once and used throughout:

* Go `float64` arithmetic is embedded as exact rational arithmetic (`ℚ`).
  Decimal literals of the source (`0.35`, `1.3`, `1e-6`, …) become the
  corresponding rationals.
* Every comparison of a Euclidean distance against a bound in the source
  (`math.Hypot(a,b) ⋈ c`) is embedded in its squared form together with a
  sign condition: for a true distance `d ≥ 0`, `d ≤ c ↔ (0 ≤ c ∧ d^2 ≤ c^2)`
  and `d < c ↔ (0 ≤ c ∧ d^2 < c^2)`.  These renderings are extensionally
  equal to the source's predicates, and keep every predicate decidable.
* The two places where the source *divides* by a computed hypotenuse
  (`Move` normalisation and `moveMobTowardsLocked`) take the square-root
  value from an oracle parameter `sq : ℚ → ℚ`; theorems that depend on the
  value of the root carry a hypothesis that `sq` is the genuine square root
  at the one point where it is consulted.  Guard-style invariants hold for
  every oracle.
* `uuid.UUID` becomes `String`, with `""` playing the role of `uuid.Nil`.
* Go maps (`players`, `mobs`) become association lists; map assignment is
  modelled by replace-or-append, which matches Go map semantics up to the
  (unspecified) iteration order.
* The random heading/duration draws of mob wandering are modelled as an
  oracle stream of draws stored in the world state.
* The bounded outbound channel of a session (capacity 128, non-blocking
  send) becomes a `List Frame` that drops a newly sent frame when it
  already holds 128 entries.
* Calls to the external position updater are recorded in a `persists`
  trace field instead of performing I/O.
-/

/-- Tile kinds, from `internal/domain/world` (`TileType`). -/
inductive TileType where
  | grass
  | water
  | wall
  | forest
deriving DecidableEq, Repr

/-- Spawn point of a map (`SpawnPoint`). -/
structure SpawnPoint where
  x : ℚ
  y : ℚ
deriving DecidableEq, Repr

/-- Tile map (`TileMap`): dimensions, spawn, row-major tile grid. -/
structure TileMap where
  width : Int
  height : Int
  spawn : SpawnPoint
  tiles : List (List TileType)
deriving DecidableEq, Repr

/-- Static NPC (`NPC`); the dialogue/trade fields are irrelevant to every
claim and carried as plain data. -/
structure NPC where
  id : String
  name : String
  role : String
  x : ℚ
  y : ℚ
  zoneID : String
deriving DecidableEq, Repr

/-- Player state (`PlayerState`).  `class` is a Lean keyword, so the Go
field `Class` is called `className` here. -/
structure PlayerState where
  id : String
  name : String
  x : ℚ
  y : ℚ
  hp : Int
  maxHP : Int
  className : String
  level : Int
  experience : Int
  gold : Int
  zoneID : String
deriving DecidableEq, Repr

/-- Mob state (`MobState`). -/
structure MobState where
  id : String
  name : String
  x : ℚ
  y : ℚ
  hp : Int
  maxHP : Int
  damage : Int
  patrolRadius : ℚ
  zoneID : String
  alive : Bool
deriving DecidableEq, Repr

/-- Mob runtime (`mobRuntime`): the broadcastable state plus spawn anchor,
cooldowns and the current wander vector. -/
structure MobRuntime where
  state : MobState
  spawnX : ℚ
  spawnY : ℚ
  attackCooldown : Int
  respawnCounter : Int
  wanderDX : ℚ
  wanderDY : ℚ
  wanderTicksRemain : Int
deriving DecidableEq, Repr

/-- Character record handed to `Join` by the character service
(`internal/domain/character.Character`): the fields `Join` reads. -/
structure Character where
  id : String
  accountID : String
  name : String
  className : String
  posX : ℚ
  posY : ℚ
deriving DecidableEq, Repr

/-- One random draw consumed by a wander re-roll: the heading vector
`(cos θ, sin θ)·0.7·mobMoveSpeed` and the duration `5 + Intn(20)`,
modelled as oracle data. -/
structure RngDraw where
  wdx : ℚ
  wdy : ℚ
  dur : Int
deriving DecidableEq, Repr

/-- Outbound frames, one constructor per payload shape the service
serialises (§6 of the spec).  A frame value stands for its JSON
serialisation; `broadcastZone` building one value and enqueuing it to many
sessions models "serialize once". -/
inductive Frame where
  | welcome (selfID : String) (character : PlayerState) (zoneID : String)
      (map : TileMap) (players : List PlayerState) (mobs : List MobState)
      (npcs : List NPC)
  | playerJoined (player : PlayerState)
  | playerLeft (playerID : String)
  | playerMoved (playerID : String) (x y : ℚ)
  | mobUpdate (mobs : List MobState)
  | combat (attacker target : String) (damage : Int)
  | mobDied (mobID : String)
  | playerDied (playerID : String)
  | playerUpdate (player : PlayerState)
  | broadcastMsg (message : String)
  | errorMsg (message : String)
deriving DecidableEq, Repr

/-- A connected session (`Client`): identity `sid` stands for the Go
pointer, `characterID = ""` for `uuid.Nil`, `send` for the bounded
outbound channel. -/
structure Client where
  sid : Nat
  accountID : String
  characterID : String
  send : List Frame
deriving DecidableEq, Repr

/-- A recorded call to the external position updater
(`CharacterPositionUpdater.UpdatePosition`). -/
structure PersistCall where
  accountID : String
  characterID : String
  x : ℚ
  y : ℚ
  zoneID : String
deriving DecidableEq, Repr

/-- An event produced under the write lock and broadcast after release
(`zoneEvent`). -/
structure ZoneEvent where
  zoneID : String
  payload : Frame
deriving DecidableEq, Repr

/-- The whole world service state (`Service`): zone, map, player and mob
tables, session set, tick counter, plus the wander-draw oracle stream and
the persistence trace. -/
structure World where
  zoneID : String
  worldMap : TileMap
  players : List (String × PlayerState)
  mobs : List (String × MobRuntime)
  npcs : List NPC
  clients : List Client
  tick : Nat
  rng : List RngDraw
  persists : List PersistCall
deriving DecidableEq, Repr

/-! ## Constants (`const` block of `service.go`) -/

def playerMoveSpeed : ℚ := 35 / 100
def playerCollisionRadius : ℚ := 2 / 10
def playerAttackRange : ℚ := 13 / 10
def basePlayerDamage : Int := 20
def mobAggroRange : ℚ := 6
def mobAttackRange : ℚ := 11 / 10
def mobMoveSpeed : ℚ := 18 / 100
def mobAttackCooldownTicks : Int := 7
def mobRespawnTicks : Int := 50
def mobWanderMaxTicks : Int := 20

/-- The `1e-6` dead-zone threshold of `Move`, and the `< 1e-6` guard of
`moveMobTowardsLocked`. -/
def moveEpsilon : ℚ := 1 / 1000000

/-! ## Distance comparisons

`distance(ax,ay,bx,by) = math.Hypot(ax-bx, ay-by)`; all comparisons are
embedded in squared form (see the header). -/

/-- Squared Euclidean distance; `distance` in the source returns its
square root. -/
def distSq (ax ay bx by_ : ℚ) : ℚ :=
  (ax - bx) ^ 2 + (ay - by_) ^ 2

/-- `d ≤ c` for a true distance `d = √dsq`: `0 ≤ c ∧ dsq ≤ c²`. -/
def distLe (dsq c : ℚ) : Bool :=
  0 ≤ c ∧ dsq ≤ c ^ 2

/-- `d < c` for a true distance `d = √dsq`: `0 < c ∧ dsq < c²`. -/
def distLt (dsq c : ℚ) : Bool :=
  0 < c ∧ dsq < c ^ 2

/-! ## Tile grid -/

/-- `tileAt`: tile under a world point; any probe outside the grid reads as
wall.  `math.Floor` is `Rat.floor` (the kernel-reducible spelling of `⌊·⌋`
on `ℚ`). -/
def tileAt (m : TileMap) (x y : ℚ) : TileType :=
  if x < 0 ∨ y < 0 then TileType.wall
  else
    let tx : Int := x.floor
    let ty : Int := y.floor
    if tx < 0 ∨ m.width ≤ tx ∨ ty < 0 ∨ m.height ≤ ty then TileType.wall
    else ((m.tiles.getD ty.toNat []).getD tx.toNat TileType.wall)

/-- `isWalkableWithRadius`: the five probes centre/left/right/up/down must
all avoid wall and water. -/
def isWalkableWithRadius (m : TileMap) (x y radius : ℚ) : Bool :=
  [(x, y), (x - radius, y), (x + radius, y), (x, y - radius), (x, y + radius)].all
    (fun c => !(tileAt m c.1 c.2 = TileType.wall ∨ tileAt m c.1 c.2 = TileType.water))

/-- `isWalkable`: radius-0 walkability. -/
def isWalkable (m : TileMap) (x y : ℚ) : Bool :=
  isWalkableWithRadius m x y 0

/-! ## Association-list versions of the Go maps -/

/-- Go map assignment `l[k] = v`: replace the binding when present,
append otherwise. -/
def insertAssoc (l : List (String × α)) (k : String) (v : α) : List (String × α) :=
  if (l.lookup k).isSome then l.map (fun kv => if kv.1 = k then (k, v) else kv)
  else l ++ [(k, v)]

/-- Go map deletion `delete(l, k)`. -/
def eraseAssoc (l : List (String × α)) (k : String) : List (String × α) :=
  l.filter (fun kv => kv.1 ≠ k)

/-! ## Outbound queues and broadcasting -/

/-- Channel capacity of a session's `Send` queue. -/
def sendQueueCap : Nat := 128

/-- `nonBlockingSend`: enqueue unless the bounded channel is full, in which
case the frame is dropped. -/
def nonBlockingSend (q : List Frame) (f : Frame) : List Frame :=
  if q.length < sendQueueCap then q ++ [f] else q

/-- Deliver one frame to the session `sid` only (`nonBlockingSendJSON` on
`c.Send`). -/
def enqueueClient (w : World) (sid : Nat) (f : Frame) : World :=
  { w with
    clients := w.clients.map (fun c =>
      if c.sid = sid then { c with send := nonBlockingSend c.send f } else c) }

/-- Recipient test of `broadcastZone`: a session receives a zone frame iff
its character id is set, it is not the skipped character (`skip = ""`
plays `uuid.Nil`), and its player runtime exists in the given zone. -/
def broadcastEligible (players : List (String × PlayerState)) (skip zoneID : String)
    (c : Client) : Bool :=
  if c.characterID = "" then false
  else if skip ≠ "" ∧ c.characterID = skip then false
  else
    match players.lookup c.characterID with
    | none => false
    | some pr => pr.zoneID = zoneID

/-- `broadcastZone`: serialize the payload once (the shared `f`) and
non-blocking-send it to every eligible session. -/
def broadcastZone (w : World) (skip zoneID : String) (f : Frame) : World :=
  { w with
    clients := w.clients.map (fun c =>
      if broadcastEligible w.players skip zoneID c
      then { c with send := nonBlockingSend c.send f } else c) }

/-! ## Zone snapshots -/

/-- `playersInZoneLocked`. -/
def playersInZone (w : World) (zoneID : String) : List PlayerState :=
  (w.players.filter (fun kv => kv.2.zoneID = zoneID)).map (·.2)

/-- `mobStatesLocked`. -/
def mobStates (w : World) (zoneID : String) : List MobState :=
  ((w.mobs.filter (fun kv => kv.2.state.zoneID = zoneID)).map (·.2)).map (·.state)

/-- Find the session with identity `sid`. -/
def findClient (w : World) (sid : Nat) : Option Client :=
  w.clients.find? (fun c => c.sid = sid)

/-! ## Map construction (`loadWorldMap` mob defaults, `fallbackWorld`) -/

/-- One entry of the map file's `mobs` array (`MobJSON`). -/
structure MobJSON where
  id : String
  name : String
  x : ℚ
  y : ℚ
  hp : Int
  damage : Int
  patrolRadius : ℚ
deriving DecidableEq, Repr

/-- The mob-list part of `loadWorldMap`: skip entries with an empty id and
apply the defaults `hp=60`, `damage=8`, `patrol_radius=5` when the field is
unset or non-positive; `max_hp = hp`, `alive = true`. -/
def loadMobs (data : List MobJSON) (zoneID : String) : List MobState :=
  (data.filter (fun m => m.id ≠ "")).map (fun m : MobJSON =>
    ({ id := m.id, name := m.name, x := m.x, y := m.y,
       hp := if m.hp ≤ 0 then 60 else m.hp,
       maxHP := if m.hp ≤ 0 then 60 else m.hp,
       damage := if m.damage ≤ 0 then 8 else m.damage,
       patrolRadius := if m.patrolRadius ≤ 0 then 5 else m.patrolRadius,
       zoneID := zoneID, alive := true } : MobState))

/-- Tile grid of `fallbackWorld`: 50×50, wall on the border, grass inside. -/
def fallbackTiles : List (List TileType) :=
  (List.range 50).map (fun y =>
    (List.range 50).map (fun x =>
      if x = 0 ∨ y = 0 ∨ x = 49 ∨ y = 49 then TileType.wall else TileType.grass))

/-- The `fallbackWorld` tile map: 50×50 with spawn `(2.5, 2.5)`. -/
def fallbackWorldMap : TileMap :=
  { width := 50, height := 50, spawn := { x := 5 / 2, y := 5 / 2 }, tiles := fallbackTiles }

/-- The `fallbackWorld` NPC list. -/
def fallbackNPCs (zoneID : String) : List NPC :=
  [{ id := "npc-merchant-1", name := "Rurik", role := "merchant", x := 5, y := 5, zoneID := zoneID }]

/-- The `fallbackWorld` mob list: one slime at `(14, 12)`. -/
def fallbackMobs (zoneID : String) : List MobState :=
  [{ id := "mob-slime-1", name := "Green Slime", x := 14, y := 12, hp := 60, maxHP := 60,
     damage := 8, patrolRadius := 6, zoneID := zoneID, alive := true }]

/-- Mob-runtime construction in `NewService`: spawn anchor = initial
position, counters zero. -/
def mkMobRuntime (m : MobState) : MobRuntime :=
  { state := m, spawnX := m.x, spawnY := m.y, attackCooldown := 0, respawnCounter := 0,
    wanderDX := 0, wanderDY := 0, wanderTicksRemain := 0 }

/-- The mob table built by `NewService` from a loaded mob list. -/
def mkMobTable (ms : List MobState) : List (String × MobRuntime) :=
  ms.map (fun m => (m.id, mkMobRuntime m))

/-! ## Session lifecycle (`RegisterClient`, `UnregisterClient`) -/

/-- `RegisterClient` adds a session to the set. -/
def RegisterClient (w : World) (c : Client) : World :=
  { w with clients := w.clients ++ [c] }

/-- `UnregisterClient`: remove the session; when it had a live player
runtime, also remove that runtime, broadcast `player_left` (skipping the
leaver) and a chat notice, and attempt position persistence.  Closing the
outbound queue and the connection is modelled by the session's removal. -/
def UnregisterClient (w : World) (sid : Nat) : World :=
  match findClient w sid with
  | none => w
  | some c =>
    let w1 := { w with clients := w.clients.filter (fun cl => cl.sid ≠ sid) }
    match w1.players.lookup c.characterID with
    | none => w1
    | some pr =>
      let w2 := { w1 with players := eraseAssoc w1.players c.characterID }
      let w3 := broadcastZone w2 c.characterID pr.zoneID (Frame.playerLeft c.characterID)
      let w4 := broadcastZone w3 "" pr.zoneID
        (Frame.broadcastMsg (pr.name ++ " left the world"))
      { w4 with persists := w4.persists ++
          [{ accountID := c.accountID, characterID := c.characterID,
             x := pr.x, y := pr.y, zoneID := pr.zoneID }] }

/-! ## `Join` -/

/-- `Join`: pick the start position (persisted coordinates unless both are
non-positive, in which case the map spawn; then the hard fallback
`(1.5, 1.5)` when the candidate is not radius-0 walkable), bind the
character to the session, create the runtime, send the `welcome` snapshot
to the joiner and announce the join to the zone. -/
def Join (w : World) (sid : Nat) (char : Character) : World :=
  match findClient w sid with
  | none => w
  | some _ =>
    let cand : ℚ × ℚ :=
      if char.posX ≤ 0 ∧ char.posY ≤ 0 then (w.worldMap.spawn.x, w.worldMap.spawn.y)
      else (char.posX, char.posY)
    let pos : ℚ × ℚ := if isWalkable w.worldMap cand.1 cand.2 then cand else (3 / 2, 3 / 2)
    let player : PlayerState :=
      { id := char.id, name := char.name, x := pos.1, y := pos.2, hp := 100, maxHP := 100,
        className := char.className, level := 1, experience := 0, gold := 0, zoneID := w.zoneID }
    let w1 := { w with clients := w.clients.map (fun cl : Client =>
      if cl.sid = sid then { cl with characterID := char.id } else cl) }
    let w2 := { w1 with players := insertAssoc w1.players char.id player }
    let w3 := enqueueClient w2 sid
      (Frame.welcome char.id player w.zoneID w.worldMap (playersInZone w2 w.zoneID)
        (mobStates w2 w.zoneID) w.npcs)
    let w4 := broadcastZone w3 char.id w.zoneID (Frame.playerJoined player)
    broadcastZone w4 "" w.zoneID (Frame.broadcastMsg (char.name ++ " joined the world"))

/-! ## `Move` -/

/-- `Move`: dead-zone check, unit normalisation when the intent vector's
hypotenuse exceeds 1 (the test `hypot(dx,dy) > 1` is the squared test
`dx²+dy² > 1`; the root's value comes from the oracle `sq`), scale by
`playerMoveSpeed`, X-then-Y slide with radius `0.2`, `player_moved`
broadcast to the whole zone, asynchronous position persistence. -/
def Move (sq : ℚ → ℚ) (w : World) (sid : Nat) (dx dy : ℚ) : World :=
  if |dx| < moveEpsilon ∧ |dy| < moveEpsilon then w
  else
    match findClient w sid with
    | none => w
    | some c =>
      let normSq := dx ^ 2 + dy ^ 2
      let dir : ℚ × ℚ := if 1 < normSq then (dx / sq normSq, dy / sq normSq) else (dx, dy)
      let stepX := dir.1 * playerMoveSpeed
      let stepY := dir.2 * playerMoveSpeed
      match w.players.lookup c.characterID with
      | none => w
      | some pr =>
        let x1 := if isWalkableWithRadius w.worldMap (pr.x + stepX) pr.y playerCollisionRadius
          then pr.x + stepX else pr.x
        let y1 := if isWalkableWithRadius w.worldMap x1 (pr.y + stepY) playerCollisionRadius
          then pr.y + stepY else pr.y
        let pr1 : PlayerState := { pr with x := x1, y := y1 }
        let w1 := { w with players := insertAssoc w.players c.characterID pr1 }
        let w2 := broadcastZone w1 "" pr.zoneID (Frame.playerMoved c.characterID x1 y1)
        { w2 with persists := w2.persists ++
            [{ accountID := c.accountID, characterID := c.characterID,
               x := x1, y := y1, zoneID := pr.zoneID }] }

/-! ## `Attack` and the level-up loop -/

/-- The level-up `for` loop of `Attack`, with explicit fuel.  The source
loop terminates whenever `level ≥ 1` (each pass consumes `level·100 ≥ 100`
experience), and then any fuel of at least `experience.toNat` computes its
exact result; the fuel only matters on the degenerate `level ≤ 0` states
the service never creates, where the Go loop would not terminate either. -/
def levelUpLoop : Nat → PlayerState → PlayerState
  | 0, p => p
  | fuel + 1, p =>
    if p.level * 100 ≤ p.experience then
      levelUpLoop fuel
        { p with experience := p.experience - p.level * 100, level := p.level + 1,
                 maxHP := p.maxHP + 20, hp := p.maxHP + 20 }
    else p

/-- The kill reward of `Attack`: `+25` experience, then the level-up loop. -/
def grantKillXP (p : PlayerState) : PlayerState :=
  levelUpLoop (p.experience + 25).toNat { p with experience := p.experience + 25 }

/-- `Attack`: silently ignore callers without a runtime; error frames for
unknown/dead targets and for targets beyond `playerAttackRange` (the test
`distance > 1.3` is the squared test `¬(0 ≤ 1.3 ∧ d² ≤ 1.3²)`); otherwise
deal `20 + (level−1)·3` damage, broadcast the `combat` event, and perform
the kill bookkeeping (death flags, respawn counter, XP grant, death
broadcasts, `player_update` to the attacker). -/
def Attack (w : World) (sid : Nat) (targetID : String) : World :=
  match findClient w sid with
  | none => w
  | some c =>
    match w.players.lookup c.characterID with
    | none => w
    | some pr =>
      match w.mobs.lookup targetID with
      | none => enqueueClient w sid (Frame.errorMsg "invalid mob target")
      | some mob =>
        if mob.state.alive = false then enqueueClient w sid (Frame.errorMsg "invalid mob target")
        else if ¬ distLe (distSq pr.x pr.y mob.state.x mob.state.y) playerAttackRange then
          enqueueClient w sid (Frame.errorMsg "target out of range")
        else
          let dmg := basePlayerDamage + (pr.level - 1) * 3
          let mob1 := { mob with state := { mob.state with hp := mob.state.hp - dmg } }
          let w1 := { w with mobs := insertAssoc w.mobs targetID mob1 }
          let w2 := broadcastZone w1 "" pr.zoneID (Frame.combat c.characterID targetID dmg)
          match w2.mobs.lookup targetID with
          | none => w2
          | some mobA =>
            let kill := mobA.state.hp ≤ 0 ∧ mobA.state.alive
            let deadState : MobState := { mobA.state with alive := false, hp := 0 }
            let deadMob : MobRuntime :=
              { mobA with state := deadState, respawnCounter := mobRespawnTicks }
            let mobB := if kill then deadMob else mobA
            let prB := if kill then grantKillXP pr else pr
            let killMobs := insertAssoc w2.mobs targetID mobB
            let killPlayers := insertAssoc w2.players c.characterID prB
            let w3 := if kill then { w2 with mobs := killMobs, players := killPlayers } else w2
            if mobB.state.alive = false ∧ mobB.respawnCounter = mobRespawnTicks then
              let w4 := broadcastZone w3 "" pr.zoneID (Frame.mobDied targetID)
              let w5 := broadcastZone w4 "" pr.zoneID
                (Frame.broadcastMsg (prB.name ++ " defeated " ++ targetID))
              enqueueClient w5 sid (Frame.playerUpdate prB)
            else w3

/-! ## Mob AI (`stepMobsLocked` and helpers) -/

/-- `withinPatrol`: distance from the spawn anchor at most `patrol_radius`
(squared rendering of `distance(spawn, x, y) ≤ PatrolRadius`). -/
def withinPatrol (mob : MobRuntime) (x y : ℚ) : Bool :=
  distLe (distSq mob.spawnX mob.spawnY x y) mob.state.patrolRadius

/-- `closestPlayerInRangeLocked`: the live same-zone player at minimal
distance within `rng`, ties broken by iteration order (here: list order).
The `bestDist` seed `math.MaxFloat64` is subsumed by the `d ≤ rng` test for
every call the service makes (`rng = 6`). -/
def closestPlayerInRange (players : List (String × PlayerState)) (zoneID : String)
    (x y rng : ℚ) : Option (String × PlayerState) :=
  (players.foldl (fun best kv =>
    if kv.2.zoneID ≠ zoneID ∨ kv.2.hp ≤ 0 then best
    else
      let dsq := distSq x y kv.2.x kv.2.y
      match best with
      | none => if distLe dsq rng then some (kv.1, kv.2, dsq) else none
      | some b =>
        if distLe dsq rng ∧ dsq < b.2.2 then some (kv.1, kv.2, dsq) else some b)
    (none : Option (String × PlayerState × ℚ))).map (fun b => (b.1, b.2.1))

/-- `moveMobTowardsLocked`: straight-line step of `mobMoveSpeed` toward the
target, committed only when the destination is both within patrol range and
radius-0.2 walkable.  The `n < 1e-6` guard is the squared test
`dx²+dy² < (1e-6)²`; the division by `n` consults the root oracle `sq`. -/
def moveMobTowards (sq : ℚ → ℚ) (m : TileMap) (mob : MobRuntime) (x y : ℚ) : MobRuntime :=
  let dx := x - mob.state.x
  let dy := y - mob.state.y
  let nsq := dx ^ 2 + dy ^ 2
  if nsq < moveEpsilon ^ 2 then mob
  else
    let n := sq nsq
    let sx := dx / n * mobMoveSpeed
    let sy := dy / n * mobMoveSpeed
    let nx := mob.state.x + sx
    let ny := mob.state.y + sy
    if withinPatrol mob nx ny ∧ isWalkableWithRadius m nx ny (2 / 10) then
      { mob with state := { mob.state with x := nx, y := ny } }
    else mob

/-- `wanderMobLocked`: re-roll heading and duration from the draw stream
when the previous wander expired, decrement the remaining ticks, and step;
a step that would leave patrol range or walkable ground cancels the wander
(forcing a re-roll next tick) without moving. -/
def wanderMob (m : TileMap) (mob : MobRuntime) (rng : List RngDraw) :
    MobRuntime × List RngDraw :=
  let rolled : MobRuntime × List RngDraw :=
    if mob.wanderTicksRemain ≤ 0 then
      let d := rng.headD { wdx := 0, wdy := 0, dur := 5 }
      ({ mob with wanderDX := d.wdx, wanderDY := d.wdy, wanderTicksRemain := d.dur }, rng.tail)
    else (mob, rng)
  let mob1 := { rolled.1 with wanderTicksRemain := rolled.1.wanderTicksRemain - 1 }
  let nx := mob1.state.x + mob1.wanderDX
  let ny := mob1.state.y + mob1.wanderDY
  if ¬ withinPatrol mob1 nx ny ∨ ¬ isWalkableWithRadius m nx ny (2 / 10) then
    ({ mob1 with wanderTicksRemain := 0 }, rolled.2)
  else
    ({ mob1 with state := { mob1.state with x := nx, y := ny } }, rolled.2)

/-- `applyMobAttackLocked`: the `combat` event and hp subtraction; on a
lethal hit the player is restored to full hp and teleported to the map
spawn, with `player_died` and `player_moved` events. -/
def applyMobAttack (spawn : SpawnPoint) (mob : MobRuntime) (pr : PlayerState) :
    PlayerState × List ZoneEvent :=
  let ev0 : ZoneEvent :=
    { zoneID := pr.zoneID, payload := Frame.combat mob.state.id pr.id mob.state.damage }
  let pr1 : PlayerState := { pr with hp := pr.hp - mob.state.damage }
  if 0 < pr1.hp then (pr1, [ev0])
  else
    let pr2 : PlayerState := { pr1 with hp := pr1.maxHP, x := spawn.x, y := spawn.y }
    (pr2, [ev0, { zoneID := pr.zoneID, payload := Frame.playerDied pr.id },
      { zoneID := pr.zoneID, payload := Frame.playerMoved pr.id spawn.x spawn.y }])

/-- The dead-mob branch of `stepMobsLocked`: decrement the respawn counter
while positive; when it reaches 0 revive at the spawn anchor with full hp
and emit the respawn notice. -/
def stepDeadMob (mob : MobRuntime) : MobRuntime × List ZoneEvent :=
  let c1 := if 0 < mob.respawnCounter then mob.respawnCounter - 1 else mob.respawnCounter
  if c1 = 0 then
    let st : MobState :=
      { mob.state with alive := true, hp := mob.state.maxHP, x := mob.spawnX, y := mob.spawnY }
    ({ mob with state := st, respawnCounter := c1 },
     [{ zoneID := mob.state.zoneID,
        payload := Frame.broadcastMsg (mob.state.name ++ " has respawned") }])
  else ({ mob with respawnCounter := c1 }, [])

/-- One mob's share of `stepMobsLocked`: respawn bookkeeping when dead;
otherwise acquire the closest live player within aggro range and attack,
chase, or wander. -/
def stepOneMob (sq : ℚ → ℚ) (m : TileMap) (spawn : SpawnPoint)
    (players : List (String × PlayerState)) (rng : List RngDraw) (mob : MobRuntime) :
    MobRuntime × List (String × PlayerState) × List RngDraw × List ZoneEvent :=
  if mob.state.alive = false then
    let r := stepDeadMob mob
    (r.1, players, rng, r.2)
  else
    match closestPlayerInRange players mob.state.zoneID mob.state.x mob.state.y mobAggroRange with
    | some t =>
      let dsq := distSq t.2.x t.2.y mob.state.x mob.state.y
      if distLe dsq mobAttackRange then
        if 0 < mob.attackCooldown then
          ({ mob with attackCooldown := mob.attackCooldown - 1 }, players, rng, [])
        else
          let hit := applyMobAttack spawn mob t.2
          ({ mob with attackCooldown := mobAttackCooldownTicks },
           insertAssoc players t.1 hit.1, rng, hit.2)
      else
        let mob1 := moveMobTowards sq m mob t.2.x t.2.y
        let mob2 := if 0 < mob1.attackCooldown then
            { mob1 with attackCooldown := mob1.attackCooldown - 1 } else mob1
        (mob2, players, rng, [])
    | none =>
      let mob1 := if 0 < mob.attackCooldown then
          { mob with attackCooldown := mob.attackCooldown - 1 } else mob
      let r := wanderMob m mob1 rng
      (r.1, players, r.2, [])

/-- `stepMobsLocked`: fold `stepOneMob` over the mob table, threading the
player table, the draw stream and the event list. -/
def stepMobs (sq : ℚ → ℚ) (m : TileMap) (spawn : SpawnPoint) :
    List (String × MobRuntime) → List (String × PlayerState) → List RngDraw →
    List (String × MobRuntime) × List (String × PlayerState) × List RngDraw × List ZoneEvent
  | [], players, rng => ([], players, rng, [])
  | (k, mob) :: rest, players, rng =>
    let r1 := stepOneMob sq m spawn players rng mob
    let r2 := stepMobs sq m spawn rest r1.2.1 r1.2.2.1
    ((k, r1.1) :: r2.1, r2.2.1, r2.2.2.1, r1.2.2.2 ++ r2.2.2.2)

/-- The locked part of `tickWorld`: the stepped tables, the remaining draw
stream and the tick's events. -/
def tickData (sq : ℚ → ℚ) (w : World) :
    List (String × MobRuntime) × List (String × PlayerState) × List RngDraw × List ZoneEvent :=
  stepMobs sq w.worldMap w.worldMap.spawn w.mobs w.players w.rng

/-- The events collected by one tick (`events` in `tickWorld`). -/
def tickEvents (sq : ℚ → ℚ) (w : World) : List ZoneEvent :=
  (tickData sq w).2.2.2

/-- `tickWorld`: advance the tick counter, run the mob AI under the lock,
then broadcast the per-event frames in order followed by the `mob_update`
snapshot. -/
def tickWorld (sq : ℚ → ℚ) (w : World) : World :=
  let td := tickData sq w
  let w1 : World :=
    { w with tick := w.tick + 1, mobs := td.1, players := td.2.1, rng := td.2.2.1 }
  let w2 := td.2.2.2.foldl (fun acc ev => broadcastZone acc "" ev.zoneID ev.payload) w1
  broadcastZone w2 "" w.zoneID (Frame.mobUpdate (mobStates w1 w.zoneID))

/-! ## Reachable states -/

/-- The mob table as `NewService` builds it: either from a successfully
parsed map file (`loadMobs` applies the per-mob defaults) or from
`fallbackWorld`. -/
def InitMobs (w : World) : Prop :=
  (∃ data, w.mobs = mkMobTable (loadMobs data w.zoneID)) ∨
    w.mobs = mkMobTable (fallbackMobs w.zoneID)

/-- States reachable from a freshly constructed world by any interleaving
of session registration, commands and ticks. -/
inductive Reach : World → Prop
  | init (w : World) : InitMobs w → w.players = [] → w.clients = [] → Reach w
  | register (w : World) (c : Client) : Reach w → c.characterID = "" → c.send = [] →
      Reach (RegisterClient w c)
  | join (w : World) (sid : Nat) (char : Character) : Reach w → Reach (Join w sid char)
  | move (sq : ℚ → ℚ) (w : World) (sid : Nat) (dx dy : ℚ) : Reach w →
      Reach (Move sq w sid dx dy)
  | attack (w : World) (sid : Nat) (targetID : String) : Reach w →
      Reach (Attack w sid targetID)
  | unregister (w : World) (sid : Nat) : Reach w → Reach (UnregisterClient w sid)
  | tick (sq : ℚ → ℚ) (w : World) : Reach w → Reach (tickWorld sq w)


/-! ## Generic lemmas about the table operations -/

theorem lookup_map_replace_ne {α : Type} (l : List (String × α)) (k k' : String) (v : α)
    (h : k' ≠ k) :
    (l.map (fun kv => if kv.1 = k then (k, v) else kv)).lookup k' = l.lookup k' := by
  induction l with
  | nil => rfl
  | cons a t ih =>
    rcases a with ⟨a1, a2⟩
    by_cases hk : a1 = k
    · subst hk
      have hbeq : (k' == a1) = false := by simpa using h
      simp [List.lookup_cons, hbeq, ih]
    · simp only [List.map_cons, if_neg hk, List.lookup_cons]
      cases hb : (k' == a1) with
      | true => rfl
      | false => exact ih

theorem lookup_append_single_ne {α : Type} (l : List (String × α)) (k k' : String) (v : α)
    (h : k' ≠ k) : (l ++ [(k, v)]).lookup k' = l.lookup k' := by
  induction l with
  | nil =>
    have hbeq : (k' == k) = false := by simpa using h
    simp [List.lookup_cons, hbeq]
  | cons a t ih =>
    rcases a with ⟨a1, a2⟩
    simp only [List.cons_append, List.lookup_cons]
    cases hb : (k' == a1) with
    | true => rfl
    | false => exact ih

theorem lookup_map_replace_self {α : Type} (l : List (String × α)) (k : String) (v : α)
    (h : (l.lookup k).isSome) :
    (l.map (fun kv => if kv.1 = k then (k, v) else kv)).lookup k = some v := by
  induction l with
  | nil => simp at h
  | cons a t ih =>
    rcases a with ⟨a1, a2⟩
    by_cases hk : a1 = k
    · subst hk
      simp [List.lookup_cons]
    · simp only [List.map_cons, if_neg hk, List.lookup_cons] at h ⊢
      have hbeq : (k == a1) = false := by
        simp only [beq_eq_false_iff_ne]
        exact fun he => hk he.symm
      simp only [hbeq] at h ⊢
      exact ih h

theorem lookup_append_single_self {α : Type} (l : List (String × α)) (k : String) (v : α)
    (h : l.lookup k = none) : (l ++ [(k, v)]).lookup k = some v := by
  induction l with
  | nil => simp [List.lookup_cons]
  | cons a t ih =>
    rcases a with ⟨a1, a2⟩
    simp only [List.lookup_cons] at h
    simp only [List.cons_append, List.lookup_cons]
    cases hb : (k == a1) with
    | true => simp [hb] at h
    | false =>
      simp only [hb] at h ⊢
      exact ih h

theorem lookup_insertAssoc_self {α : Type} (l : List (String × α)) (k : String) (v : α) :
    (insertAssoc l k v).lookup k = some v := by
  unfold insertAssoc
  split
  · exact lookup_map_replace_self l k v (by assumption)
  · rename_i h
    cases hl : List.lookup k l with
    | none => exact lookup_append_single_self l k v hl
    | some v2 => exact absurd (by simp [hl]) h

theorem lookup_insertAssoc_ne {α : Type} (l : List (String × α)) (k k' : String) (v : α)
    (h : k' ≠ k) : (insertAssoc l k v).lookup k' = l.lookup k' := by
  unfold insertAssoc
  split
  · exact lookup_map_replace_ne l k k' v h
  · exact lookup_append_single_ne l k k' v h

theorem mem_insertAssoc {α : Type} (l : List (String × α)) (k : String) (v : α)
    (km : String × α) (h : km ∈ insertAssoc l k v) : km = (k, v) ∨ km ∈ l := by
  unfold insertAssoc at h
  split at h
  · rcases List.mem_map.1 h with ⟨a, ha, he⟩
    by_cases hk : a.1 = k
    · left
      simp only [if_pos hk] at he
      exact he.symm
    · right
      simp only [if_neg hk] at he
      exact he ▸ ha
  · rcases List.mem_append.1 h with h1 | h1
    · right; exact h1
    · left
      simpa using h1

theorem lookup_mem {α : Type} (l : List (String × α)) (k : String) (v : α)
    (h : l.lookup k = some v) : (k, v) ∈ l := by
  induction l with
  | nil => simp at h
  | cons a t ih =>
    rcases a with ⟨a1, a2⟩
    simp only [List.lookup_cons] at h
    cases hb : (k == a1) with
    | true =>
      simp only [hb] at h
      obtain rfl : a2 = v := by simpa using h
      obtain rfl : k = a1 := by simpa using hb
      exact List.mem_cons_self _ _
    | false =>
      simp only [hb] at h
      exact List.mem_cons_of_mem _ (ih h)

theorem find?_sid_map (l : List Client) (g : Client → Client)
    (hg : ∀ c, (g c).sid = c.sid) (sid : Nat) :
    (l.map g).find? (fun c => c.sid = sid) = (l.find? (fun c => c.sid = sid)).map g := by
  rw [List.find?_map]
  have he : ((fun c => decide (c.sid = sid)) ∘ g) = (fun c : Client => decide (c.sid = sid)) := by
    funext c
    simp [Function.comp, hg]
  rw [he]

/-! ## Concrete fixtures -/

/-- The configured zone id (`WORLD_ZONE_ID` default). -/
def zoneS : String := "starter-zone"

/-- A freshly registered session. -/
def freshClient (sid : Nat) (cid : String) : Client :=
  { sid := sid, accountID := "acct-1", characterID := cid, send := [] }

/-- A freshly constructed world on the fallback map with one registered,
not-yet-joined session. -/
def baseWorld : World :=
  { zoneID := zoneS, worldMap := fallbackWorldMap, players := [],
    mobs := mkMobTable (fallbackMobs zoneS), npcs := fallbackNPCs zoneS,
    clients := [freshClient 0 ""], tick := 0, rng := [], persists := [] }

/-- A character persisted at `(14, 0.5)`: both coordinates positive, but the
point lies on the fallback map's border wall row. -/
def charEdge : Character :=
  { id := "char-edge", accountID := "acct-1", name := "Edge", className := "mage",
    posX := 14, posY := 1 / 2 }

/-- A character persisted at `(5.5, 5.5)` (walkable interior). -/
def charA : Character :=
  { id := "char-A", accountID := "acct-1", name := "Ada", className := "mage",
    posX := 11 / 2, posY := 11 / 2 }

/-- A second character of the same account, persisted at `(7.5, 7.5)`. -/
def charB : Character :=
  { id := "char-B", accountID := "acct-1", name := "Brin", className := "warrior",
    posX := 15 / 2, posY := 15 / 2 }

/-- C2, counterexample: the character `charEdge` is persisted at `(14, 0.5)`
with both coordinates positive but the point on the border wall; the claim
then requires the map spawn `(2.5, 2.5)`, yet `Join` places the player at
the hard fallback `(1.5, 1.5)`. -/
theorem c2_counterexample :
    0 < charEdge.posX ∧ 0 < charEdge.posY ∧
    isWalkable baseWorld.worldMap charEdge.posX charEdge.posY = false ∧
    baseWorld.worldMap.spawn.x = 5 / 2 ∧ baseWorld.worldMap.spawn.y = 5 / 2 ∧
    isWalkable baseWorld.worldMap baseWorld.worldMap.spawn.x baseWorld.worldMap.spawn.y = true ∧
    ((Join baseWorld 0 charEdge).players.lookup "char-edge").map (fun p => (p.x, p.y)) =
      some (3 / 2, 3 / 2) := by
  with_unfolding_all decide

/-- C2 (amended): on `Join`, the candidate position is the persisted
`(pos_x, pos_y)` unless BOTH coordinates are non-positive (in which case it
is the map's spawn point); whenever the candidate — persisted or spawn — is
not radius-0 walkable, the hard fallback `(1.5, 1.5)` is used.  In
particular a positive but unwalkable persisted position falls to
`(1.5, 1.5)`, not to the spawn, and a single non-positive coordinate keeps
the persisted candidate. -/
theorem c2_amended_thm (w : World) (sid : Nat) (char : Character) (c : Client)
    (hc : findClient w sid = some c) :
    ((Join w sid char).players.lookup char.id).map (fun p => (p.x, p.y)) =
      some (if isWalkable w.worldMap
              (if char.posX ≤ 0 ∧ char.posY ≤ 0 then w.worldMap.spawn.x else char.posX)
              (if char.posX ≤ 0 ∧ char.posY ≤ 0 then w.worldMap.spawn.y else char.posY)
            then (if char.posX ≤ 0 ∧ char.posY ≤ 0 then w.worldMap.spawn.x else char.posX,
                  if char.posX ≤ 0 ∧ char.posY ≤ 0 then w.worldMap.spawn.y else char.posY)
            else (3 / 2, 3 / 2)) := by
  simp only [Join, hc]
  simp only [broadcastZone, enqueueClient]
  by_cases h1 : char.posX ≤ 0 ∧ char.posY ≤ 0 <;>
    by_cases h2 : isWalkable w.worldMap
        (if char.posX ≤ 0 ∧ char.posY ≤ 0 then w.worldMap.spawn.x else char.posX)
        (if char.posX ≤ 0 ∧ char.posY ≤ 0 then w.worldMap.spawn.y else char.posY) <;>
    simp [h1, h2, lookup_insertAssoc_self]

/-- C2, witness: the amended position rule evaluated for `charEdge` joining
`baseWorld`. -/
theorem c2_amended_witness :
    ((Join baseWorld 0 charEdge).players.lookup charEdge.id).map (fun p => (p.x, p.y)) =
      some (if isWalkable baseWorld.worldMap
              (if charEdge.posX ≤ 0 ∧ charEdge.posY ≤ 0 then baseWorld.worldMap.spawn.x
                else charEdge.posX)
              (if charEdge.posX ≤ 0 ∧ charEdge.posY ≤ 0 then baseWorld.worldMap.spawn.y
                else charEdge.posY)
            then (if charEdge.posX ≤ 0 ∧ charEdge.posY ≤ 0 then baseWorld.worldMap.spawn.x
                    else charEdge.posX,
                  if charEdge.posX ≤ 0 ∧ charEdge.posY ≤ 0 then baseWorld.worldMap.spawn.y
                    else charEdge.posY)
            else (3 / 2, 3 / 2)) :=
  c2_amended_thm baseWorld 0 charEdge (freshClient 0 "") (by with_unfolding_all decide)

/-- C8, counterexample: a session joins `char-A` and then `char-B`; after
the second join the session controls `char-B`, but the runtime of `char-A`
— the one previously associated with the session — still exists in the
player table, contradicting the claim that it no longer exists. -/
theorem c8_counterexample :
    ((findClient (Join baseWorld 0 charA) 0).map (fun cl => cl.characterID) = some "char-A") ∧
    ((findClient (Join (Join baseWorld 0 charA) 0 charB) 0).map (fun cl => cl.characterID) =
      some "char-B") ∧
    ((Join (Join baseWorld 0 charA) 0 charB).players.lookup "char-A").isSome = true ∧
    ((Join (Join baseWorld 0 charA) 0 charB).players.lookup "char-B").isSome = true := by
  with_unfolding_all decide

theorem characterID_ite (P : Prop) [Decidable P] (cl : Client) (q : List Frame) :
    (if P then { cl with send := q } else cl).characterID = cl.characterID := by
  split <;> rfl

theorem sid_ite (P : Prop) [Decidable P] (cl : Client) (q : List Frame) :
    (if P then { cl with send := q } else cl).sid = cl.sid := by
  split <;> rfl

/-- C8 (amended): a second `join` rebinds the session to the new character
and installs a fresh runtime under the new character id (overwriting the
old runtime exactly when the same character is joined again); the runtimes
of all other character ids are untouched — so when the second join names a
different character, the previous runtime remains orphaned in the player
table. -/
theorem c8_amended_thm (w : World) (sid : Nat) (char : Character) (c : Client)
    (hc : findClient w sid = some c) :
    ((findClient (Join w sid char) sid).map (fun cl => cl.characterID) = some char.id) ∧
    ((Join w sid char).players.lookup char.id).isSome = true ∧
    (∀ k, k ≠ char.id → (Join w sid char).players.lookup k = w.players.lookup k) := by
  have hc' : List.find? (fun cl => decide (cl.sid = sid)) w.clients = some c := hc
  have hsid : c.sid = sid := by
    have := List.find?_some hc'
    simpa using this
  refine ⟨?_, ?_, ?_⟩
  · simp only [Join, hc]
    simp only [broadcastZone, enqueueClient, findClient]
    rw [find?_sid_map, find?_sid_map, find?_sid_map, find?_sid_map, hc']
    · simp only [Option.map_some', Option.some.injEq]
      rw [if_pos hsid]
      rw [if_pos (show ({ c with characterID := char.id } : Client).sid = sid from hsid)]
      simp only [apply_ite (fun cl : Client => cl.characterID), ite_self]
    all_goals (intro cl; simp only [apply_ite (fun cl : Client => cl.sid), ite_self])
  · simp only [Join, hc, broadcastZone, enqueueClient]
    simp [lookup_insertAssoc_self]
  · intro k hk
    simp only [Join, hc, broadcastZone, enqueueClient]
    simp [lookup_insertAssoc_ne _ _ _ _ hk]

def joinedClientA : Client :=
  { sid := 0, accountID := "acct-1", characterID := "char-A", send := [] }

def playerA : PlayerState :=
  { id := "char-A", name := "Ada", x := 11 / 2, y := 11 / 2, hp := 100, maxHP := 100,
    className := "mage", level := 1, experience := 0, gold := 0, zoneID := zoneS }

def worldWithA : World :=
  { baseWorld with clients := [joinedClientA], players := [("char-A", playerA)] }

/-- C8, witness: the amended re-join behaviour evaluated for a session
bound to `char-A` joining `char-B`. -/
theorem c8_amended_witness :
    ((findClient (Join worldWithA 0 charB) 0).map (fun cl => cl.characterID) = some charB.id) ∧
    ((Join worldWithA 0 charB).players.lookup charB.id).isSome = true ∧
    (Join worldWithA 0 charB).players.lookup "char-A" = worldWithA.players.lookup "char-A" :=
  have h := c8_amended_thm worldWithA 0 charB joinedClientA (by with_unfolding_all decide)
  ⟨h.1, h.2.1, h.2.2 "char-A" (by decide)⟩

/-- C10: for a session whose character id has no live player runtime,
`Move` and `Attack` are silent no-ops (world unchanged: no frame to anyone,
not even an error frame, and no persistence call recorded), and
`UnregisterClient` only removes the session — no `player_left` frame, no
chat notice, no persistence attempt. -/
theorem c10_thm (w : World) (sid : Nat) (c : Client)
    (hc : findClient w sid = some c)
    (hnone : w.players.lookup c.characterID = none) :
    (∀ sq dx dy, Move sq w sid dx dy = w) ∧
    (∀ tid, Attack w sid tid = w) ∧
    UnregisterClient w sid = { w with clients := w.clients.filter (fun cl => cl.sid ≠ sid) } := by
  refine ⟨?_, ?_, ?_⟩
  · intro sq dx dy
    unfold Move
    split
    · rfl
    · simp only [hc, hnone]
  · intro tid
    unfold Attack
    simp only [hc, hnone]
  · unfold UnregisterClient
    simp only [hc, hnone]

def ghostClient : Client :=
  { sid := 5, accountID := "acct-9", characterID := "char-ghost", send := [] }

def worldWithA5 : World := { worldWithA with clients := [joinedClientA, ghostClient] }

/-- C10, witness: the ghost session `sid = 5` of `worldWithA5` moving,
attacking and unregistering. -/
theorem c10_witness :
    (Move (fun q => q) worldWithA5 5 1 0 = worldWithA5) ∧
    (Attack worldWithA5 5 "mob-slime-1" = worldWithA5) ∧
    UnregisterClient worldWithA5 5 =
      { worldWithA5 with clients := worldWithA5.clients.filter (fun cl => cl.sid ≠ 5) } := by
  have h := c10_thm worldWithA5 5 ghostClient (by with_unfolding_all decide)
    (by with_unfolding_all decide)
  exact ⟨h.1 (fun q => q) 1 0, h.2.1 "mob-slime-1", h.2.2⟩

/-- C7: an attack by a live player on an alive mob farther than
`player_attack_range = 1.3` enqueues exactly one error frame
`"target out of range"` on the caller's queue; an attack naming a dead or
unknown mob likewise yields one error frame (`"invalid mob target"`); in
all three cases players, mobs, tick and the persistence trace are
unchanged and no other session's queue is touched (the last conjunct
spells out `enqueueClient`'s effect). -/
theorem c7_thm (w : World) (sid : Nat) (tid : String) (c : Client) (pr : PlayerState)
    (hc : findClient w sid = some c)
    (hpr : w.players.lookup c.characterID = some pr) :
    (∀ mob, w.mobs.lookup tid = some mob → mob.state.alive = true →
        distLe (distSq pr.x pr.y mob.state.x mob.state.y) playerAttackRange = false →
        Attack w sid tid = enqueueClient w sid (Frame.errorMsg "target out of range")) ∧
    (∀ mob, w.mobs.lookup tid = some mob → mob.state.alive = false →
        Attack w sid tid = enqueueClient w sid (Frame.errorMsg "invalid mob target")) ∧
    (w.mobs.lookup tid = none →
        Attack w sid tid = enqueueClient w sid (Frame.errorMsg "invalid mob target")) ∧
    (∀ f : Frame, (enqueueClient w sid f).players = w.players ∧
        (enqueueClient w sid f).mobs = w.mobs ∧
        (enqueueClient w sid f).persists = w.persists ∧
        (enqueueClient w sid f).tick = w.tick ∧
        (enqueueClient w sid f).clients = w.clients.map (fun cl =>
          if cl.sid = sid then { cl with send := nonBlockingSend cl.send f } else cl)) := by
  refine ⟨?_, ?_, ?_, ?_⟩
  · intro mob hmob halive hrange
    unfold Attack
    simp only [hc, hpr, hmob, halive, hrange]
    norm_num
  · intro mob hmob hdead
    unfold Attack
    simp only [hc, hpr, hmob, hdead]
    rw [if_pos]
    trivial
  · intro hmob
    unfold Attack
    simp only [hc, hpr, hmob]
  · intro f
    exact ⟨rfl, rfl, rfl, rfl, rfl⟩

def slimeState : MobState :=
  { id := "mob-slime-1", name := "Green Slime", x := 14, y := 12, hp := 60, maxHP := 60,
    damage := 8, patrolRadius := 6, zoneID := zoneS, alive := true }

def slimeRt : MobRuntime := mkMobRuntime slimeState

/-- C7, witness: `worldWithA`'s player at `(5.5, 5.5)` attacking the slime
at `(14, 12)` — out of range. -/
theorem c7_witness :
    Attack worldWithA 0 "mob-slime-1" =
      enqueueClient worldWithA 0 (Frame.errorMsg "target out of range") :=
  (c7_thm worldWithA 0 "mob-slime-1" joinedClientA playerA (by with_unfolding_all decide)
      (by with_unfolding_all decide)).1
    slimeRt (by with_unfolding_all decide) (by with_unfolding_all decide)
    (by with_unfolding_all decide)

/-- Recipient condition of a zone broadcast exactly as the spec states it. -/
def broadcastRecipientSpec (players : List (String × PlayerState)) (skip zoneID : String)
    (c : Client) : Prop :=
  c.characterID ≠ "" ∧
  (∃ pr, players.lookup c.characterID = some pr ∧ pr.zoneID = zoneID) ∧
  (skip ≠ "" → c.characterID ≠ skip)

/-- C9: `broadcastZone` serialises the payload once (the shared frame
value `f`) and enqueues it on exactly the sessions with a non-empty
character id, an existing player runtime in the matching zone, and a
character id different from the skip id when that is set
(`broadcastRecipientSpec`); the enqueue drops the frame for a session
whose queue is at capacity 128 while still delivering to every other
recipient, and no other world component changes. -/
theorem c9_thm (w : World) (skip zoneID : String) (f : Frame) :
    (broadcastZone w skip zoneID f).players = w.players ∧
    (broadcastZone w skip zoneID f).mobs = w.mobs ∧
    (broadcastZone w skip zoneID f).persists = w.persists ∧
    (broadcastZone w skip zoneID f).tick = w.tick ∧
    (∀ c : Client, broadcastEligible w.players skip zoneID c = true ↔
        broadcastRecipientSpec w.players skip zoneID c) ∧
    (broadcastZone w skip zoneID f).clients = w.clients.map (fun c =>
      if broadcastEligible w.players skip zoneID c
      then { c with send := if c.send.length < 128 then c.send ++ [f] else c.send }
      else c) := by
  refine ⟨rfl, rfl, rfl, rfl, ?_, rfl⟩
  intro c
  unfold broadcastEligible broadcastRecipientSpec
  constructor
  · intro h
    split at h
    · simp at h
    · rename_i hcid
      split at h
      · simp at h
      · rename_i hskip
        split at h
        · simp at h
        · rename_i pr hpr
          refine ⟨hcid, ⟨pr, hpr, by simpa using h⟩, ?_⟩
          intro hs
          by_contra he
          exact hskip ⟨hs, he⟩
  · rintro ⟨hcid, ⟨pr, hpr, hz⟩, hskip⟩
    split
    · exact absurd (by assumption) hcid
    · split
      · rename_i hsk
        exact absurd hsk.2 (hskip hsk.1)
      · split
        · rename_i hnone
          rw [hpr] at hnone
          cases hnone
        · rename_i pr2 hpr2
          rw [hpr] at hpr2
          cases hpr2
          simpa using hz

/-- The level-1 player of the C6 scenario. -/
def levelOneHero : PlayerState :=
  { id := "hero", name := "Hero", x := 3 / 2, y := 3 / 2, hp := 100, maxHP := 100,
    className := "mage", level := 1, experience := 0, gold := 0, zoneID := zoneS }

theorem foldl_iterate_sum {α : Type} (f : α → α) (parts : List ℕ) (p : α) :
    parts.foldl (fun st k => f^[k] st) p = f^[parts.sum] p := by
  induction parts generalizing p with
  | nil => rfl
  | cons a t ih =>
    simp only [List.foldl_cons, List.sum_cons, ih]
    rw [Nat.add_comm, Function.iterate_add_apply]

/-- C6: applying the kill reward (`+25` experience followed by the
level-up loop, `grantKillXP`) 100 times to the level-1 player yields the
same state no matter how the 100 grants are split into batches. -/
theorem c6_thm (parts : List ℕ) (h : parts.sum = 100) :
    parts.foldl (fun st k => grantKillXP^[k] st) levelOneHero =
      grantKillXP^[100] levelOneHero := by
  rw [foldl_iterate_sum, h]

/-- C6, witness: the batch split `[30, 45, 25]` of the 100 grants. -/
theorem c6_witness :
    ([30, 45, 25] : List ℕ).sum = 100 ∧
    ([30, 45, 25] : List ℕ).foldl (fun st k => grantKillXP^[k] st) levelOneHero =
      grantKillXP^[100] levelOneHero :=
  ⟨by decide, c6_thm [30, 45, 25] (by decide)⟩

/-- The `move` command as §4.4 of the spec words it, given the true
hypotenuse `n = hypot(dx, dy)` of the intent vector: dead-zone no-op;
normalisation to unit length exactly when `n > 1`; scaling by
`player_move_speed = 0.35`; the X-then-Y slide at radius `0.2`; a
`player_moved` broadcast with the resulting position to the zone with no
skipped character (so the mover is included); asynchronous position
persistence. -/
def moveSpec (w : World) (sid : Nat) (dx dy n : ℚ) : World :=
  if |dx| < moveEpsilon ∧ |dy| < moveEpsilon then w
  else
    match findClient w sid with
    | none => w
    | some c =>
      match w.players.lookup c.characterID with
      | none => w
      | some pr =>
        let dir : ℚ × ℚ := if 1 < n then (dx / n, dy / n) else (dx, dy)
        let stepX := dir.1 * playerMoveSpeed
        let stepY := dir.2 * playerMoveSpeed
        let x1 := if isWalkableWithRadius w.worldMap (pr.x + stepX) pr.y playerCollisionRadius
          then pr.x + stepX else pr.x
        let y1 := if isWalkableWithRadius w.worldMap x1 (pr.y + stepY) playerCollisionRadius
          then pr.y + stepY else pr.y
        let pr1 : PlayerState := { pr with x := x1, y := y1 }
        let w1 := { w with players := insertAssoc w.players c.characterID pr1 }
        let w2 := broadcastZone w1 "" pr.zoneID (Frame.playerMoved c.characterID x1 y1)
        { w2 with persists := w2.persists ++
            [{ accountID := c.accountID, characterID := c.characterID,
               x := x1, y := y1, zoneID := pr.zoneID }] }

/-- C5: given the true hypotenuse `n` of the intent vector, `Move` equals
the spec's description `moveSpec` — dead-zone no-op below `1e-6`,
normalisation to unit length exactly when `hypot(dx, dy) > 1`, scaling by
`0.35`, the X-then-Y slide at radius `0.2`, and a `player_moved` broadcast
with the resulting position to the zone with no skip; the last conjunct
shows the mover itself is an eligible recipient of that broadcast even
when neither axis commits (the frame carries the unchanged position
then). -/
theorem c5_thm (sq : ℚ → ℚ) (w : World) (sid : Nat) (dx dy n : ℚ)
    (hn0 : 0 ≤ n) (hn : n ^ 2 = dx ^ 2 + dy ^ 2) (hsq : sq (dx ^ 2 + dy ^ 2) = n) :
    Move sq w sid dx dy = moveSpec w sid dx dy n ∧
    (|dx| < moveEpsilon ∧ |dy| < moveEpsilon → Move sq w sid dx dy = w) ∧
    (∀ (players : List (String × PlayerState)) (cl : Client) (pr1 : PlayerState),
        cl.characterID ≠ "" →
        broadcastEligible (insertAssoc players cl.characterID pr1) "" pr1.zoneID cl = true) := by
  have hlt : ((1 : ℚ) < dx ^ 2 + dy ^ 2) = (1 < n) := by
    rw [← hn]
    apply propext
    constructor
    · intro h1
      nlinarith
    · intro h1
      nlinarith
  refine ⟨?_, ?_, ?_⟩
  · unfold Move moveSpec
    split
    · rfl
    · cases hfc : findClient w sid with
      | none => rfl
      | some c =>
        dsimp only
        cases hlp : w.players.lookup c.characterID with
        | none => rfl
        | some pr =>
          dsimp only
          rw [hsq]
          simp only [hlt]
  · intro hsmall
    unfold Move
    rw [if_pos hsmall]
  · intro players cl pr1 hcid
    unfold broadcastEligible
    rw [lookup_insertAssoc_self]
    simp [hcid]

/-- The exact square root of `25`, enough for the C5 scenario's intent
vector `(3, 4)`. -/
def sqOracle : ℚ → ℚ := fun q => if q = 25 then 5 else 0

/-- C5, witness: the intent vector `(3, 4)` (hypotenuse 5, so the
normalisation path is taken) with an exact square-root oracle. -/
theorem c5_witness :
    Move sqOracle worldWithA 0 3 4 = moveSpec worldWithA 0 3 4 5 :=
  (c5_thm sqOracle worldWithA 0 3 4 5 (by norm_num) (by norm_num)
    (by with_unfolding_all decide)).1

/-- A character persisted at `(1.1, 5.5)`: the point itself is on grass,
but the radius-0.2 probe `(0.9, 5.5)` is inside the border wall. -/
def charNearWall : Character :=
  { id := "char-wall", accountID := "acct-1", name := "Wally", className := "mage",
    posX := 11 / 10, posY := 11 / 2 }

/-- C1, counterexample: joining with the persisted position `(1.1, 5.5)`
places the player there (it is radius-0 walkable), and a subsequent `move`
command with intent `(-1, 0)` commits neither axis and leaves the player at
`(1.1, 5.5)` — a position that does NOT satisfy `walkable_radius` with the
player radius 0.2, because the probe `(0.9, 5.5)` is inside the border
wall.  So the claimed invariant fails for positions reached by joining. -/
theorem c1_counterexample :
    (((Join baseWorld 0 charNearWall).players.lookup "char-wall").map (fun p => (p.x, p.y)) =
      some (11 / 10, 11 / 2)) ∧
    (((Move (fun q => q) (Join baseWorld 0 charNearWall) 0 (-1) 0).players.lookup
        "char-wall").map (fun p => (p.x, p.y)) = some (11 / 10, 11 / 2)) ∧
    isWalkableWithRadius fallbackWorldMap (11 / 10) (11 / 2) playerCollisionRadius = false := by
  with_unfolding_all decide

theorem broadcastZone_players (w : World) (skip zone : String) (f : Frame) :
    (broadcastZone w skip zone f).players = w.players := rfl

theorem broadcastZone_mobs (w : World) (skip zone : String) (f : Frame) :
    (broadcastZone w skip zone f).mobs = w.mobs := rfl

theorem enqueueClient_players (w : World) (sid : Nat) (f : Frame) :
    (enqueueClient w sid f).players = w.players := rfl

theorem enqueueClient_mobs (w : World) (sid : Nat) (f : Frame) :
    (enqueueClient w sid f).mobs = w.mobs := rfl

theorem wanderMob_walkable (m : TileMap) (mob : MobRuntime) (rng : List RngDraw)
    (hw : isWalkableWithRadius m mob.state.x mob.state.y (2 / 10) = true) :
    isWalkableWithRadius m (wanderMob m mob rng).1.state.x
      (wanderMob m mob rng).1.state.y (2 / 10) = true := by
  unfold wanderMob
  by_cases hroll : mob.wanderTicksRemain ≤ 0
  · simp only [hroll, if_pos, if_true]
    split
    · exact hw
    · rename_i hcommit
      rw [not_or] at hcommit
      obtain ⟨-, h2⟩ := hcommit
      simpa using h2
  · simp only [hroll, if_neg, if_false]
    split
    · exact hw
    · rename_i hcommit
      rw [not_or] at hcommit
      obtain ⟨-, h2⟩ := hcommit
      simpa using h2

theorem moveMobTowards_walkable (sq : ℚ → ℚ) (m : TileMap) (mob : MobRuntime) (x y : ℚ)
    (hw : isWalkableWithRadius m mob.state.x mob.state.y (2 / 10) = true) :
    isWalkableWithRadius m (moveMobTowards sq m mob x y).state.x
      (moveMobTowards sq m mob x y).state.y (2 / 10) = true := by
  unfold moveMobTowards
  dsimp only
  split
  · exact hw
  · split
    · rename_i hcommit
      simpa using hcommit.2
    · exact hw

/-- C1 (amended): `move` commands and the mob AI's chase/wander steps
PRESERVE radius-0.2 walkability — each axis of a move commits only when
the shifted position passes `walkable_radius(·, 0.2)`, and an alive mob's
step only commits guarded destinations — but positions installed by
`Join` (checked only at radius 0), by the death teleport and by mob
respawn are not radius-checked, so the invariant holds only for states
whose entity positions already satisfy it. -/
theorem c1_amended_thm :
    (∀ (sq : ℚ → ℚ) (w : World) (sid : Nat) (dx dy : ℚ) (k : String) (p p' : PlayerState),
        w.players.lookup k = some p →
        isWalkableWithRadius w.worldMap p.x p.y playerCollisionRadius = true →
        (Move sq w sid dx dy).players.lookup k = some p' →
        isWalkableWithRadius w.worldMap p'.x p'.y playerCollisionRadius = true) ∧
    (∀ (sq : ℚ → ℚ) (m : TileMap) (spawn : SpawnPoint)
        (players : List (String × PlayerState)) (rng : List RngDraw) (mob : MobRuntime),
        mob.state.alive = true →
        isWalkableWithRadius m mob.state.x mob.state.y (2 / 10) = true →
        isWalkableWithRadius m (stepOneMob sq m spawn players rng mob).1.state.x
          (stepOneMob sq m spawn players rng mob).1.state.y (2 / 10) = true) := by
  constructor
  · intro sq w sid dx dy k p p' hp hw hp'
    unfold Move at hp'
    split at hp'
    · rw [hp] at hp'
      cases hp'
      exact hw
    · revert hp'
      cases hfc : findClient w sid with
      | none =>
        intro hp'
        rw [hp] at hp'
        cases hp'
        exact hw
      | some c =>
        dsimp only
        cases hlp : w.players.lookup c.characterID with
        | none =>
          intro hp'
          rw [hp] at hp'
          cases hp'
          exact hw
        | some pr =>
          dsimp only
          intro hp'
          rw [broadcastZone_players] at hp'
          dsimp only at hp'
          by_cases hk : k = c.characterID
          · subst hk
            rw [lookup_insertAssoc_self] at hp'
            cases hp'
            have hpr : pr = p := by
              rw [hp] at hlp
              cases hlp
              rfl
            subst hpr
            dsimp only
            repeat' split
            all_goals assumption
          · rw [lookup_insertAssoc_ne _ _ _ _ hk] at hp'
            rw [hp] at hp'
            cases hp'
            exact hw
  · intro sq m spawn players rng mob halive hw
    unfold stepOneMob
    simp only [halive, Bool.true_eq_false, if_false]
    cases hcp : closestPlayerInRange players mob.state.zoneID mob.state.x mob.state.y
        mobAggroRange with
    | none =>
      dsimp only
      have hs : (if 0 < mob.attackCooldown
          then { mob with attackCooldown := mob.attackCooldown - 1 } else mob).state =
          mob.state := by
        split <;> rfl
      apply wanderMob_walkable
      rw [hs]
      exact hw
    | some t =>
      dsimp only
      split
      · split
        · exact hw
        · exact hw
      · have hs : ∀ mb : MobRuntime, (if 0 < mb.attackCooldown
            then { mb with attackCooldown := mb.attackCooldown - 1 } else mb).state =
            mb.state := by
          intro mb
          split <;> rfl
        rw [hs]
        exact moveMobTowards_walkable sq m mob t.2.x t.2.y hw

/-- C1, witness: the preservation applied to a committed move of
`worldWithA`'s player and to a wander step of the slime. -/
theorem c1_amended_witness :
    isWalkableWithRadius worldWithA.worldMap (117 / 20) (11 / 2) playerCollisionRadius = true ∧
    isWalkableWithRadius fallbackWorldMap
      (stepOneMob (fun q => q) fallbackWorldMap { x := 5 / 2, y := 5 / 2 } [] [] slimeRt).1.state.x
      (stepOneMob (fun q => q) fallbackWorldMap { x := 5 / 2, y := 5 / 2 } [] [] slimeRt).1.state.y
      (2 / 10) = true :=
  ⟨c1_amended_thm.1 (fun q => q) worldWithA 0 1 0 "char-A" playerA
      { playerA with x := 117 / 20 } (by with_unfolding_all decide)
      (by with_unfolding_all decide) (by with_unfolding_all decide),
   c1_amended_thm.2 (fun q => q) fallbackWorldMap { x := 5 / 2, y := 5 / 2 } [] [] slimeRt
      (by with_unfolding_all decide) (by with_unfolding_all decide)⟩

/-! ## Patrol containment (invariant machinery for the tick loop) -/

/-- A mob is within patrol range of its spawn anchor (squared form; with
the sign condition this is exactly `distance(spawn, pos) ≤ patrol_radius`). -/
def PatrolOK (mob : MobRuntime) : Prop :=
  0 ≤ mob.state.patrolRadius ∧
  distSq mob.spawnX mob.spawnY mob.state.x mob.state.y ≤ mob.state.patrolRadius ^ 2

/-- Every mob of a table is within patrol range. -/
def MobsPatrolOK (mobs : List (String × MobRuntime)) : Prop :=
  ∀ km ∈ mobs, PatrolOK km.2

theorem stepDeadMob_patrol (mob : MobRuntime) (h : PatrolOK mob) :
    PatrolOK (stepDeadMob mob).1 := by
  have hrev : distSq mob.spawnX mob.spawnY mob.spawnX mob.spawnY ≤
      mob.state.patrolRadius ^ 2 := by
    unfold distSq
    have h0 : (mob.spawnX - mob.spawnX) ^ 2 + (mob.spawnY - mob.spawnY) ^ 2 = 0 := by ring
    rw [h0]
    positivity
  unfold stepDeadMob
  dsimp only
  split <;> split
  · exact ⟨h.1, hrev⟩
  · exact h
  · exact ⟨h.1, hrev⟩
  · exact h

theorem withinPatrol_patrolOK (mob : MobRuntime) (nx ny : ℚ)
    (h : withinPatrol mob nx ny = true) :
    0 ≤ mob.state.patrolRadius ∧
      distSq mob.spawnX mob.spawnY nx ny ≤ mob.state.patrolRadius ^ 2 := by
  unfold withinPatrol distLe at h
  simpa using h

theorem wanderMob_patrol (m : TileMap) (mob : MobRuntime) (rng : List RngDraw)
    (h : PatrolOK mob) : PatrolOK (wanderMob m mob rng).1 := by
  unfold wanderMob
  by_cases hroll : mob.wanderTicksRemain ≤ 0
  · simp only [hroll, if_pos, if_true]
    split
    · exact h
    · rename_i hcommit
      rcases not_or.1 hcommit with ⟨h1, -⟩
      rw [not_not] at h1
      exact withinPatrol_patrolOK _ _ _ h1
  · simp only [hroll, if_neg, if_false]
    split
    · exact h
    · rename_i hcommit
      rcases not_or.1 hcommit with ⟨h1, -⟩
      rw [not_not] at h1
      exact withinPatrol_patrolOK _ _ _ h1

theorem moveMobTowards_patrol (sq : ℚ → ℚ) (m : TileMap) (mob : MobRuntime) (x y : ℚ)
    (h : PatrolOK mob) : PatrolOK (moveMobTowards sq m mob x y) := by
  unfold moveMobTowards
  dsimp only
  split
  · exact h
  · split
    · rename_i hcommit
      exact withinPatrol_patrolOK _ _ _ hcommit.1
    · exact h

theorem stepOneMob_patrol (sq : ℚ → ℚ) (m : TileMap) (spawn : SpawnPoint)
    (players : List (String × PlayerState)) (rng : List RngDraw) (mob : MobRuntime)
    (h : PatrolOK mob) : PatrolOK (stepOneMob sq m spawn players rng mob).1 := by
  unfold stepOneMob
  split
  · exact stepDeadMob_patrol mob h
  · cases hcp : closestPlayerInRange players mob.state.zoneID mob.state.x mob.state.y
        mobAggroRange with
    | none =>
      dsimp only
      have hs : PatrolOK (if 0 < mob.attackCooldown
          then { mob with attackCooldown := mob.attackCooldown - 1 } else mob) := by
        split
        · exact h
        · exact h
      exact wanderMob_patrol _ _ _ hs
    | some t =>
      dsimp only
      split
      · split
        · exact h
        · exact h
      · have hmv := moveMobTowards_patrol sq m mob t.2.x t.2.y h
        split
        · exact hmv
        · exact hmv

theorem stepMobs_patrol (sq : ℚ → ℚ) (m : TileMap) (spawn : SpawnPoint)
    (mobs : List (String × MobRuntime)) (players : List (String × PlayerState))
    (rng : List RngDraw) (h : MobsPatrolOK mobs) :
    MobsPatrolOK (stepMobs sq m spawn mobs players rng).1 := by
  induction mobs generalizing players rng with
  | nil =>
    intro km hkm
    simp [stepMobs] at hkm
  | cons a rest ih =>
    rcases a with ⟨k, mob⟩
    intro km hkm
    unfold stepMobs at hkm
    dsimp only at hkm
    rcases List.mem_cons.1 hkm with h1 | h1
    · subst h1
      exact stepOneMob_patrol sq m spawn players rng mob (h (k, mob) (List.mem_cons_self _ _))
    · have hrest : MobsPatrolOK rest := fun km2 hm2 => h km2 (List.mem_cons_of_mem _ hm2)
      exact ih _ _ hrest km h1

theorem Join_mobs (w : World) (sid : Nat) (char : Character) :
    (Join w sid char).mobs = w.mobs := by
  unfold Join
  split <;> rfl

theorem Move_mobs (sq : ℚ → ℚ) (w : World) (sid : Nat) (dx dy : ℚ) :
    (Move sq w sid dx dy).mobs = w.mobs := by
  unfold Move
  split
  · rfl
  · cases findClient w sid with
    | none => rfl
    | some c =>
      dsimp only
      cases w.players.lookup c.characterID with
      | none => rfl
      | some pr => rfl

theorem UnregisterClient_mobs (w : World) (sid : Nat) :
    (UnregisterClient w sid).mobs = w.mobs := by
  unfold UnregisterClient
  cases findClient w sid with
  | none => rfl
  | some c =>
    dsimp only
    split <;> rfl

theorem mobsPatrolOK_insert (mobs : List (String × MobRuntime)) (k : String)
    (v : MobRuntime) (h : MobsPatrolOK mobs) (hv : PatrolOK v) :
    MobsPatrolOK (insertAssoc mobs k v) := by
  intro km hkm
  rcases mem_insertAssoc _ _ _ _ hkm with he | he
  · rw [he]
    exact hv
  · exact h km he

theorem Attack_patrol (w : World) (sid : Nat) (targetID : String)
    (h : MobsPatrolOK w.mobs) : MobsPatrolOK (Attack w sid targetID).mobs := by
  unfold Attack
  split
  · exact h
  · rename_i oc c hc
    split
    · exact h
    · rename_i opr pr hpr
      split
      · exact h
      · rename_i omob mob hm
        have hmob : PatrolOK mob := h (targetID, mob) (lookup_mem _ _ _ hm)
        split
        · exact h
        · split
          · exact h
          · have h1 : MobsPatrolOK (insertAssoc w.mobs targetID
                { mob with state := { mob.state with
                    hp := mob.state.hp - (basePlayerDamage + (pr.level - 1) * 3) } }) :=
              mobsPatrolOK_insert _ _ _ h hmob
            dsimp only
            split
            · exact h1
            · rename_i omobA mobA hm2
              have hmemA := lookup_mem _ _ _ hm2
              have hmobA : PatrolOK mobA := by
                rcases mem_insertAssoc _ _ _ _ hmemA with he | he
                · have h2 : mobA = { mob with state := { mob.state with
                      hp := mob.state.hp - (basePlayerDamage + (pr.level - 1) * 3) } } :=
                    congrArg Prod.snd he
                  rw [h2]
                  exact hmob
                · exact h (targetID, mobA) he
              have h3 : MobsPatrolOK (insertAssoc (insertAssoc w.mobs targetID
                  { mob with state := { mob.state with
                      hp := mob.state.hp - (basePlayerDamage + (pr.level - 1) * 3) } })
                  targetID
                  (if mobA.state.hp ≤ 0 ∧ mobA.state.alive = true
                   then { mobA with
                            state := { mobA.state with alive := false, hp := 0 },
                            respawnCounter := mobRespawnTicks }
                   else mobA)) := by
                apply mobsPatrolOK_insert _ _ _ h1
                split
                · exact hmobA
                · exact hmobA
              split <;> split <;>
                first
                  | exact h3
                  | exact h1
                  | (apply mobsPatrolOK_insert _ _ _ h1
                     exact hmobA)

theorem mkMobRuntime_patrol (m : MobState) (h : 0 ≤ m.patrolRadius) :
    PatrolOK (mkMobRuntime m) := by
  refine ⟨h, ?_⟩
  show distSq m.x m.y m.x m.y ≤ m.patrolRadius ^ 2
  unfold distSq
  have h0 : (m.x - m.x) ^ 2 + (m.y - m.y) ^ 2 = 0 := by ring
  rw [h0]
  positivity

theorem loadMobs_patrol_nonneg (data : List MobJSON) (zoneID : String) (m : MobState)
    (h : m ∈ loadMobs data zoneID) : 0 ≤ m.patrolRadius := by
  unfold loadMobs at h
  rcases List.mem_map.1 h with ⟨mj, hmj, he⟩
  subst he
  dsimp only
  split
  · norm_num
  · rename_i hpos
    exact le_of_lt (not_le.mp hpos)

theorem initMobs_patrol (w : World) (h : InitMobs w) : MobsPatrolOK w.mobs := by
  intro km hkm
  rcases h with ⟨data, hdata⟩ | hfb
  · rw [hdata] at hkm
    rcases List.mem_map.1 hkm with ⟨m, hm, he⟩
    subst he
    exact mkMobRuntime_patrol m (loadMobs_patrol_nonneg data w.zoneID m hm)
  · rw [hfb] at hkm
    rcases List.mem_map.1 hkm with ⟨m, hm, he⟩
    subst he
    have hr : 0 ≤ m.patrolRadius := by
      rcases List.mem_singleton.1 hm with rfl
      norm_num
    exact mkMobRuntime_patrol m hr

theorem tickWorld_patrol (sq : ℚ → ℚ) (w : World) (h : MobsPatrolOK w.mobs) :
    MobsPatrolOK (tickWorld sq w).mobs := by
  unfold tickWorld
  dsimp only
  have hfold : ∀ (evs : List ZoneEvent) (w1 : World),
      (evs.foldl (fun acc ev => broadcastZone acc "" ev.zoneID ev.payload) w1).mobs =
        w1.mobs := by
    intro evs
    induction evs with
    | nil => intro w1; rfl
    | cons e t ih =>
      intro w1
      rw [List.foldl_cons, ih, broadcastZone_mobs]
  rw [broadcastZone_mobs, hfold]
  exact stepMobs_patrol sq w.worldMap w.worldMap.spawn w.mobs w.players w.rng h

theorem reach_patrol (w : World) (h : Reach w) : MobsPatrolOK w.mobs := by
  induction h with
  | init w hm hp hc => exact initMobs_patrol w hm
  | register w c hr hcid hsend ih => exact ih
  | join w sid char hr ih =>
    rw [Join_mobs]
    exact ih
  | move sq w sid dx dy hr ih =>
    rw [Move_mobs]
    exact ih
  | attack w sid t hr ih => exact Attack_patrol w sid t ih
  | unregister w sid hr ih =>
    rw [UnregisterClient_mobs]
    exact ih
  | tick sq w hr ih => exact tickWorld_patrol sq w ih

/-- C3: in every state reachable from a freshly constructed world, every
mob lies within `patrol_radius` of its spawn anchor — stated in squared
form `distSq ≤ patrol_radius²` together with `0 ≤ patrol_radius`, which
for the nonnegative Euclidean distance is exactly
`distance(spawn, pos) ≤ patrol_radius`.  Chase and wander steps commit
only within patrol range, respawn resets to the spawn anchor, and no
command moves a mob. -/
theorem c3_thm (w : World) (hw : Reach w) (k : String) (mob : MobRuntime)
    (hk : (k, mob) ∈ w.mobs) :
    0 ≤ mob.state.patrolRadius ∧
    distSq mob.spawnX mob.spawnY mob.state.x mob.state.y ≤ mob.state.patrolRadius ^ 2 :=
  reach_patrol w hw (k, mob) hk

def initWorld : World := { baseWorld with clients := [] }

/-- C3, witness: the invariant read off the initial fallback world's
slime. -/
theorem c3_witness :
    0 ≤ slimeRt.state.patrolRadius ∧
    distSq slimeRt.spawnX slimeRt.spawnY slimeRt.state.x slimeRt.state.y ≤
      slimeRt.state.patrolRadius ^ 2 :=
  c3_thm initWorld (Reach.init initWorld (Or.inr rfl) rfl rfl) "mob-slime-1" slimeRt
    (by with_unfolding_all decide)

/-! ## Respawn determinism machinery -/

theorem stepOneMob_dead (sq : ℚ → ℚ) (m : TileMap) (spawn : SpawnPoint)
    (players : List (String × PlayerState)) (rng : List RngDraw) (mob : MobRuntime)
    (h : mob.state.alive = false) :
    stepOneMob sq m spawn players rng mob =
      ((stepDeadMob mob).1, players, rng, (stepDeadMob mob).2) := by
  unfold stepOneMob
  simp only [h]
  rw [if_pos trivial]

theorem stepMobs_lookup_dead (sq : ℚ → ℚ) (m : TileMap) (spawn : SpawnPoint)
    (mobs : List (String × MobRuntime)) (players : List (String × PlayerState))
    (rng : List RngDraw) (k : String) (mob : MobRuntime)
    (hk : mobs.lookup k = some mob) (hdead : mob.state.alive = false) :
    (stepMobs sq m spawn mobs players rng).1.lookup k = some (stepDeadMob mob).1 := by
  induction mobs generalizing players rng with
  | nil => simp at hk
  | cons a rest ih =>
    rcases a with ⟨k1, mob1⟩
    unfold stepMobs
    rw [List.lookup_cons] at hk
    dsimp only
    rw [List.lookup_cons]
    cases hb : (k == k1) with
    | true =>
      simp only [hb] at hk ⊢
      have hmm : mob1 = mob := by simpa using hk
      rw [hmm, stepOneMob_dead sq m spawn players rng mob hdead]
    | false =>
      simp only [hb] at hk ⊢
      exact ih _ _ hk

theorem stepMobs_dead_events (sq : ℚ → ℚ) (m : TileMap) (spawn : SpawnPoint)
    (mobs : List (String × MobRuntime)) (players : List (String × PlayerState))
    (rng : List RngDraw) (k : String) (mob : MobRuntime) (ev : ZoneEvent)
    (hk : mobs.lookup k = some mob) (hdead : mob.state.alive = false)
    (hev : ev ∈ (stepDeadMob mob).2) :
    ev ∈ (stepMobs sq m spawn mobs players rng).2.2.2 := by
  induction mobs generalizing players rng with
  | nil => simp at hk
  | cons a rest ih =>
    rcases a with ⟨k1, mob1⟩
    unfold stepMobs
    rw [List.lookup_cons] at hk
    dsimp only
    cases hb : (k == k1) with
    | true =>
      simp only [hb] at hk
      have hmm : mob1 = mob := by simpa using hk
      rw [hmm, stepOneMob_dead sq m spawn players rng mob hdead]
      exact List.mem_append_left _ hev
    | false =>
      simp only [hb] at hk
      exact List.mem_append_right _ (ih _ _ hk)

theorem foldl_broadcast_mobs (evs : List ZoneEvent) (w1 : World) :
    (evs.foldl (fun acc ev => broadcastZone acc "" ev.zoneID ev.payload) w1).mobs =
      w1.mobs := by
  induction evs generalizing w1 with
  | nil => rfl
  | cons e t ih =>
    rw [List.foldl_cons, ih, broadcastZone_mobs]

theorem tickWorld_mobs (sq : ℚ → ℚ) (w : World) :
    (tickWorld sq w).mobs = (tickData sq w).1 := by
  unfold tickWorld
  dsimp only
  rw [broadcastZone_mobs, foldl_broadcast_mobs]

theorem stepDeadMob_counter (mob : MobRuntime) :
    (0 < mob.respawnCounter →
      (stepDeadMob mob).1.respawnCounter = mob.respawnCounter - 1) ∧
    (mob.respawnCounter ≤ 0 →
      (stepDeadMob mob).1.respawnCounter = mob.respawnCounter) := by
  constructor
  · intro h
    unfold stepDeadMob
    rw [show (if 0 < mob.respawnCounter then mob.respawnCounter - 1
        else mob.respawnCounter) = mob.respawnCounter - 1 from if_pos h]
    dsimp only
    split <;> rfl
  · intro h
    unfold stepDeadMob
    rw [show (if 0 < mob.respawnCounter then mob.respawnCounter - 1
        else mob.respawnCounter) = mob.respawnCounter from if_neg (by omega)]
    dsimp only
    split <;> rfl

theorem stepDeadMob_decrement (mob : MobRuntime) (h : 1 < mob.respawnCounter) :
    stepDeadMob mob = ({ mob with respawnCounter := mob.respawnCounter - 1 }, []) := by
  unfold stepDeadMob
  rw [show (if 0 < mob.respawnCounter then mob.respawnCounter - 1
      else mob.respawnCounter) = mob.respawnCounter - 1 from if_pos (by omega)]
  dsimp only
  rw [if_neg (by omega)]

/-- The state of a mob revived by the tick loop: alive at full hp back at
its spawn anchor. -/
def reviveMob (mob : MobRuntime) : MobRuntime :=
  { mob with
    state :=
      { mob.state with alive := true, hp := mob.state.maxHP, x := mob.spawnX, y := mob.spawnY }
    respawnCounter := 0 }

/-- The respawn notice emitted when a mob revives. -/
def respawnEvent (mob : MobRuntime) : ZoneEvent :=
  { zoneID := mob.state.zoneID,
    payload := Frame.broadcastMsg (mob.state.name ++ " has respawned") }

theorem stepDeadMob_revive (mob : MobRuntime) (h : mob.respawnCounter = 1) :
    stepDeadMob mob = (reviveMob mob, [respawnEvent mob]) := by
  unfold reviveMob respawnEvent
  unfold stepDeadMob
  rw [show (if 0 < mob.respawnCounter then mob.respawnCounter - 1
      else mob.respawnCounter) = mob.respawnCounter - 1 from if_pos (by omega)]
  dsimp only
  rw [if_pos (by omega)]
  rw [h]
  norm_num

theorem tick_dead_iterate (sq : ℚ → ℚ) (k : ℕ) (w : World) (tid : String)
    (mob : MobRuntime) (hk : w.mobs.lookup tid = some mob)
    (hdead : mob.state.alive = false) (hc : (k : ℤ) < mob.respawnCounter) :
    ((tickWorld sq)^[k] w).mobs.lookup tid =
      some { mob with respawnCounter := mob.respawnCounter - (k : ℤ) } := by
  induction k generalizing w mob with
  | zero =>
    simp only [Function.iterate_zero_apply, Nat.cast_zero, sub_zero]
    exact hk
  | succ k ih =>
    rw [Function.iterate_succ_apply]
    have hgt : 1 < mob.respawnCounter := by
      push_cast at hc
      omega
    have h1 : (tickWorld sq w).mobs.lookup tid = some (stepDeadMob mob).1 := by
      rw [tickWorld_mobs]
      exact stepMobs_lookup_dead sq w.worldMap w.worldMap.spawn w.mobs w.players w.rng
        tid mob hk hdead
    rw [stepDeadMob_decrement mob hgt] at h1
    have h2 := ih (tickWorld sq w) { mob with respawnCounter := mob.respawnCounter - 1 }
      h1 hdead (by push_cast at hc ⊢; omega)
    rw [h2, sub_sub]
    push_cast
    rw [add_comm]

/-- The runtime of a mob just killed by `Attack`: dead at 0 hp with the
respawn counter armed. -/
def killedMob (mob : MobRuntime) : MobRuntime :=
  { mob with
    state := { mob.state with alive := false, hp := 0 }
    respawnCounter := mobRespawnTicks }

theorem attack_kill_sets_respawn (w : World) (sid : Nat) (tid : String) (c : Client)
    (pr : PlayerState) (mob : MobRuntime)
    (hc : findClient w sid = some c)
    (hpr : w.players.lookup c.characterID = some pr)
    (hm : w.mobs.lookup tid = some mob)
    (halive : mob.state.alive = true)
    (hrange : distLe (distSq pr.x pr.y mob.state.x mob.state.y) playerAttackRange = true)
    (hkill : mob.state.hp - (basePlayerDamage + (pr.level - 1) * 3) ≤ 0) :
    (Attack w sid tid).mobs.lookup tid = some (killedMob mob) := by
  unfold Attack
  simp only [hc, hpr, hm, halive, hrange, Bool.true_eq_false, not_true, if_false, ite_false]
  simp only [broadcastZone_mobs]
  rw [lookup_insertAssoc_self]
  dsimp only
  simp only [hkill, eq_self_iff_true, and_self, and_true, true_and, if_true]
  simp only [enqueueClient_mobs, broadcastZone_mobs]
  rw [lookup_insertAssoc_self]
  rfl

set_option maxRecDepth 4000 in
/-- C4: a mob left dead with `respawn_counter = 50` (as armed by a killing
attack — last conjunct) is still dead with counter `50 − k` after
`k ∈ [1, 49]` ticks, is alive again at full hp at its spawn anchor after
exactly 50 ticks, and the `"<name> has respawned"` broadcast notice is
among the events of the tick in which it revives; while dead, a tick
decrements the counter only when it is positive. -/
theorem c4_thm (sq : ℚ → ℚ) (w : World) (tid : String) (mob : MobRuntime)
    (hk : w.mobs.lookup tid = some mob)
    (hdead : mob.state.alive = false)
    (hcnt : mob.respawnCounter = mobRespawnTicks) :
    (∀ k : ℕ, 1 ≤ k → k ≤ 49 →
        ((tickWorld sq)^[k] w).mobs.lookup tid =
          some { mob with respawnCounter := mobRespawnTicks - (k : ℤ) }) ∧
    ((tickWorld sq)^[50] w).mobs.lookup tid = some (reviveMob mob) ∧
    respawnEvent mob ∈ tickEvents sq ((tickWorld sq)^[49] w) ∧
    (∀ m' : MobRuntime,
      (0 < m'.respawnCounter →
        (stepDeadMob m').1.respawnCounter = m'.respawnCounter - 1) ∧
      (m'.respawnCounter ≤ 0 →
        (stepDeadMob m').1.respawnCounter = m'.respawnCounter)) ∧
    (∀ (w2 : World) (sid : Nat) (c : Client) (pr : PlayerState) (mobT : MobRuntime),
        findClient w2 sid = some c →
        w2.players.lookup c.characterID = some pr →
        w2.mobs.lookup tid = some mobT →
        mobT.state.alive = true →
        distLe (distSq pr.x pr.y mobT.state.x mobT.state.y) playerAttackRange = true →
        mobT.state.hp - (basePlayerDamage + (pr.level - 1) * 3) ≤ 0 →
        (Attack w2 sid tid).mobs.lookup tid = some (killedMob mobT) ∧
        (killedMob mobT).state.alive = false ∧
        (killedMob mobT).respawnCounter = mobRespawnTicks) := by
  have hiter : ∀ k : ℕ, (k : ℤ) < mobRespawnTicks →
      ((tickWorld sq)^[k] w).mobs.lookup tid =
        some { mob with respawnCounter := mobRespawnTicks - (k : ℤ) } := by
    intro k hklt
    have h := tick_dead_iterate sq k w tid mob hk hdead (by rw [hcnt]; exact hklt)
    rw [hcnt] at h
    exact h
  have h49 : ((tickWorld sq)^[49] w).mobs.lookup tid =
      some { mob with respawnCounter := 1 } := by
    have h := hiter 49 (by norm_num [mobRespawnTicks])
    rw [show mobRespawnTicks - ((49 : ℕ) : ℤ) = 1 by norm_num [mobRespawnTicks]] at h
    exact h
  refine ⟨?_, ?_, ?_, ?_, ?_⟩
  · intro k h1 h2
    exact hiter k (by norm_num [mobRespawnTicks]; omega)
  · have h50 : (50 : ℕ) = 49 + 1 := by norm_num
    rw [h50, Function.iterate_succ_apply']
    obtain ⟨w49, hw49⟩ : ∃ x, x = (tickWorld sq)^[49] w := ⟨_, rfl⟩
    rw [← hw49] at h49 ⊢
    rw [tickWorld_mobs]
    have hstep := stepMobs_lookup_dead sq w49.worldMap w49.worldMap.spawn w49.mobs
      w49.players w49.rng tid { mob with respawnCounter := 1 } h49 hdead
    rw [stepDeadMob_revive _ (by rfl)] at hstep
    exact hstep
  · obtain ⟨w49, hw49⟩ : ∃ x, x = (tickWorld sq)^[49] w := ⟨_, rfl⟩
    rw [← hw49] at h49 ⊢
    have hev := stepMobs_dead_events sq w49.worldMap w49.worldMap.spawn w49.mobs
      w49.players w49.rng tid { mob with respawnCounter := 1 } (respawnEvent mob) h49 hdead
      (by rw [stepDeadMob_revive _ (by rfl)]; exact List.mem_singleton.2 rfl)
    exact hev
  · intro m'
    exact stepDeadMob_counter m'
  · intro w2 sid c pr mobT hfc hpr hm halive hrange hkill
    exact ⟨attack_kill_sets_respawn w2 sid tid c pr mobT hfc hpr hm halive hrange hkill,
      rfl, rfl⟩

/-- The slime runtime just after a killing blow. -/
def deadSlime : MobRuntime := killedMob slimeRt

def wDead : World := { initWorld with mobs := [("mob-slime-1", deadSlime)] }

/-- C4, witness: the freshly killed slime of `wDead` followed for 25, 49
and 50 ticks. -/
theorem c4_witness :
    ((tickWorld (fun q => q))^[25] wDead).mobs.lookup "mob-slime-1" =
      some { deadSlime with respawnCounter := mobRespawnTicks - ((25 : ℕ) : ℤ) } ∧
    ((tickWorld (fun q => q))^[50] wDead).mobs.lookup "mob-slime-1" =
      some (reviveMob deadSlime) ∧
    respawnEvent deadSlime ∈ tickEvents (fun q => q) ((tickWorld (fun q => q))^[49] wDead) :=
  have h := c4_thm (fun q => q) wDead "mob-slime-1" deadSlime (by with_unfolding_all decide)
    (by with_unfolding_all decide) (by with_unfolding_all decide)
  ⟨h.1 25 (by norm_num) (by norm_num), h.2.1, h.2.2.1⟩
